import Mathlib

/-!
Shallow embedding of the client-side chat logic of `src/app/chat/ChatComponent.tsx`
(anonychat), together with theorems checking the natural-language specification
against it.  The embedding models:

* the message record (`ChatMessage`) and Firestore timestamps (`Ts`);
* the Room Access Gate (`checkRoom`, the effect of the room-validation effect hook);
* the presentation derivation (`visibleMessages`, `sortedMessages`, the reply
  preview lookup `messageMap`/`replyPreview`);
* the mutation handlers (`handleSubmit`, `handleDeleteForEveryone`,
  `handleDeleteForMe`) as pure state transitions that also report the list of
  remote write operations they attempt.

Asynchronous Firestore calls are modelled by an explicit success/failure flag;
the remote store is modelled by the explicit values it would return.
-/

namespace AnonyChat

/-- Firestore timestamp as read by the client: `{ seconds, nanoseconds }`. -/
structure Ts where
  seconds : Int
  nanoseconds : Int
deriving DecidableEq, Repr

/-- The `ChatMessage` record of `ChatComponent.tsx`: optional fields are `Option`s;
`deletedForEveryone` is normalised to a `Bool` by the subscription (`!!data.deletedForEveryone`). -/
structure ChatMessage where
  id : String
  text : String
  name : String
  createdAt : Option Ts
  replyToId : Option String
  deletedForEveryone : Bool
  editedAt : Option Ts
deriving DecidableEq, Repr

/-! ## Room Access Gate -/

/-- A room record as stored in the `rooms` collection: `hasPasskey` flag and the
plain-text `passkey` field (`null` modelled as `none`). -/
structure RoomRec where
  hasPasskey : Bool
  passkey : Option String
deriving DecidableEq, Repr

/-- Outcome of the gate as written into `roomAccess` (`pending` is the initial
`loading` state and is left implicit: `checkRoom` models the resolved outcome). -/
inductive GateOutcome where
  | allowed
  | denied (reason : String)
deriving DecidableEq, Repr

/-- Result of one gate resolution: the outcome, the store contents afterwards,
and whether the store was contacted at all. -/
structure GateResult where
  outcome : GateOutcome
  store : Option RoomRec
  contactedStore : Bool
deriving DecidableEq, Repr

/-- JS truthiness of the stored `passkey` field (`!!data.passkey`):
`null` and the empty string are falsy. -/
def passkeyTruthy (s : Option String) : Bool :=
  match s with
  | none => false
  | some t => t ≠ ""

/-- The room-validation effect of `ChatComponent.tsx` (lines 135–206).
`roomId`/`suppliedPasskey` are the query values (absent query values are already
normalised to `""` by `searchParams.get(...) || ""`); `store` is what
`getDoc` would return for the room document; `transportFail` models the whole
`try` block throwing.  Mirrors the source:
if `!roomFromQuery` the gate denies without touching the store; otherwise on a
missing document `setDoc` writes `hasPasskey: !!passkeyFromQuery`,
`passkey: passkeyFromQuery || null` and the creator is allowed; on an existing
document `hasPasskey = !!data.hasPasskey && !!data.passkey` decides the branch,
and access needs `passkeyFromQuery && passkeyFromQuery === data.passkey`. -/
def checkRoom (roomId suppliedPasskey : String) (store : Option RoomRec)
    (transportFail : Bool) : GateResult :=
  if roomId = "" then
    ⟨.denied "No room specified.", store, false⟩
  else if transportFail then
    ⟨.denied "Failed to validate room. Please try again.", store, true⟩
  else
    match store with
    | none =>
        ⟨.allowed,
         some ⟨suppliedPasskey ≠ "",
               if suppliedPasskey = "" then none else some suppliedPasskey⟩,
         true⟩
    | some data =>
        if data.hasPasskey && passkeyTruthy data.passkey then
          if suppliedPasskey ≠ "" && data.passkey == some suppliedPasskey then
            ⟨.allowed, store, true⟩
          else
            ⟨.denied "This room is protected by a passkey. You must join with the correct passkey.",
             store, true⟩
        else
          ⟨.allowed, store, true⟩

/-- The gate as the specification's case analysis words it: a missing record is
created (`hasPasskey = suppliedPasskey non-empty`, `passkey = supplied or absent`)
and the creator allowed; a record with no passkey admits everyone; a record with
a passkey admits exactly a string-equal supplied passkey; transport failure and
a missing room identifier deny. -/
def gateSpec (roomId suppliedPasskey : String) (store : Option RoomRec)
    (transportFail : Bool) : GateResult :=
  if roomId = "" then
    ⟨.denied "No room specified.", store, false⟩
  else if transportFail then
    ⟨.denied "Failed to validate room. Please try again.", store, true⟩
  else
    match store with
    | none =>
        ⟨.allowed,
         some ⟨suppliedPasskey ≠ "",
               if suppliedPasskey = "" then none else some suppliedPasskey⟩,
         true⟩
    | some data =>
        match data.passkey with
        | none => ⟨.allowed, store, true⟩
        | some stored =>
            if suppliedPasskey = stored then ⟨.allowed, store, true⟩
            else
              ⟨.denied "This room is protected by a passkey. You must join with the correct passkey.",
               store, true⟩

/-- Well-formedness of a stored room record: exactly the shape the creation path
writes (`hasPasskey` true together with a non-empty stored passkey, or
`hasPasskey` false with the field absent). -/
def RoomRec.WF (r : RoomRec) : Prop :=
  r.hasPasskey = passkeyTruthy r.passkey ∧ r.passkey ≠ some ""

instance (r : RoomRec) : Decidable r.WF := by
  unfold RoomRec.WF; infer_instance

theorem checkRoom_creates_WF (roomId pk : String) (h : roomId ≠ "")
    (r : RoomRec) (hr : (checkRoom roomId pk none false).store = some r) : r.WF := by
  simp only [checkRoom, if_neg h, if_neg Bool.false_ne_true] at hr
  simp only [Option.some.injEq] at hr
  subst hr
  by_cases hpk : pk = "" <;> simp [RoomRec.WF, passkeyTruthy, hpk]

/-- C1: the Room Access Gate's outcome (and its effect on the store, and whether
the store is contacted) equals the specification's case analysis: no room
identifier ⟹ denied without contacting the store; missing record ⟹ created
with `hasPasskey = (supplied non-empty)`, `passkey = supplied or absent`, and
the creator allowed; record without passkey ⟹ allowed; record with passkey ⟹
allowed exactly on string-equality; transport failure ⟹ denied.  Stated for
every well-formed store content (the shape the gate's own creation path writes,
cf. `checkRoom_creates_WF`). -/
theorem roomAccessGate_matches_spec (roomId pk : String) (store : Option RoomRec)
    (transportFail : Bool) (hwf : ∀ r, store = some r → r.WF) :
    checkRoom roomId pk store transportFail = gateSpec roomId pk store transportFail := by
  unfold checkRoom gateSpec
  by_cases hroom : roomId = ""
  · simp [hroom]
  · simp only [if_neg hroom]
    cases transportFail
    · simp only [if_neg Bool.false_ne_true]
      cases store with
      | none => rfl
      | some data =>
          obtain ⟨hflag, hne⟩ := hwf data rfl
          cases hpk : data.passkey with
          | none =>
              simp [passkeyTruthy, hpk] at hflag
              simp [hflag, hpk]
          | some stored =>
              have hstored : stored ≠ "" := by
                intro hs; exact hne (by rw [hpk, hs])
              simp [passkeyTruthy, hpk, hstored] at hflag
              simp only [hflag, hpk, passkeyTruthy, Bool.true_and]
              by_cases heq : pk = stored
              · subst heq
                simp [hstored]
              · have hne2 : ¬(¬pk = "" ∧ stored = pk) := by
                  rintro ⟨-, h⟩; exact heq h.symm
                simp [hstored, heq, hne2]
    · simp

/-- Witness for C1 at a concrete protected room: supplying the stored passkey. -/
theorem roomAccessGate_matches_spec_witness :
    checkRoom "r1" "abc" (some ⟨true, some "abc"⟩) false
      = gateSpec "r1" "abc" (some ⟨true, some "abc"⟩) false :=
  roomAccessGate_matches_spec "r1" "abc" (some ⟨true, some "abc"⟩) false
    (by intro r hr; injection hr with h; subst h; decide)

/-! ## Presentation derivation -/

/-- The sort comparator of `sortedMessages` (lines 101–111): `0` when either
message lacks `createdAt`, otherwise
`a.createdAt.seconds - b.createdAt.seconds || a.createdAt.nanoseconds - b.createdAt.nanoseconds`
(JS `||` yields the first operand when it is non-zero, else the second). -/
def cmpMsg (a b : ChatMessage) : Int :=
  match a.createdAt, b.createdAt with
  | some ta, some tb =>
      if ta.seconds - tb.seconds ≠ 0 then ta.seconds - tb.seconds
      else ta.nanoseconds - tb.nanoseconds
  | _, _ => 0

/-- `visibleMessages` (lines 95–98): drop every message whose id is in the
local visibility set `hiddenForMe`. -/
def visibleMessages (messages : List ChatMessage) (hiddenForMe : Finset String) :
    List ChatMessage :=
  messages.filter (fun m => decide (m.id ∉ hiddenForMe))

/-- Stable insertion of one element with respect to `cmpMsg`: the element is
placed before the first list element it compares strictly below, so elements
comparing equal keep their relative order (ECMAScript requires
`Array.prototype.sort` to be stable). -/
def sortInsert (a : ChatMessage) : List ChatMessage → List ChatMessage
  | [] => [a]
  | b :: l => if cmpMsg a b ≤ 0 then a :: b :: l else b :: sortInsert a l

/-- `[...visibleMessages].sort(comparator)` modelled as stable insertion sort
with the source's comparator `cmpMsg`. -/
def jsSort : List ChatMessage → List ChatMessage
  | [] => []
  | a :: l => sortInsert a (jsSort l)

/-- `sortedMessages` (lines 101–111): the rendered list. -/
def sortedMessages (messages : List ChatMessage) (hiddenForMe : Finset String) :
    List ChatMessage :=
  jsSort (visibleMessages messages hiddenForMe)

theorem cmpMsg_antisymm (a b : ChatMessage) : cmpMsg b a = -cmpMsg a b := by
  unfold cmpMsg
  cases a.createdAt with
  | none => cases b.createdAt <;> simp
  | some ta =>
      cases b.createdAt with
      | none => simp
      | some tb =>
          by_cases h : ta.seconds - tb.seconds = 0
          · have h' : tb.seconds - ta.seconds = 0 := by omega
            simp [h, h']
          · have h' : tb.seconds - ta.seconds ≠ 0 := by omega
            simp [h, h']

theorem cmpMsg_total (a b : ChatMessage) : cmpMsg a b ≤ 0 ∨ cmpMsg b a ≤ 0 := by
  rw [cmpMsg_antisymm]
  omega

theorem chain_sortInsert (a : ChatMessage) (l : List ChatMessage)
    (hl : List.Chain' (fun x y => cmpMsg x y ≤ 0) l) :
    List.Chain' (fun x y => cmpMsg x y ≤ 0) (sortInsert a l) := by
  induction l with
  | nil => simp [sortInsert]
  | cons b l ih =>
      by_cases hab : cmpMsg a b ≤ 0
      · simp only [sortInsert, if_pos hab, List.chain'_cons]
        exact ⟨hab, hl⟩
      · have hba : cmpMsg b a ≤ 0 := by
          have := cmpMsg_antisymm a b
          omega
        rw [List.chain'_cons'] at hl
        obtain ⟨hhead, htail⟩ := hl
        simp only [sortInsert, if_neg hab]
        rw [List.chain'_cons']
        refine ⟨?_, ih htail⟩
        intro y hy
        cases l with
        | nil => simp [sortInsert] at hy; subst hy; exact hba
        | cons c l' =>
            simp only [sortInsert] at hy
            by_cases hac : cmpMsg a c ≤ 0
            · simp [hac] at hy
              subst hy; exact hba
            · simp [hac] at hy
              subst hy
              exact hhead c rfl

theorem chain_jsSort (l : List ChatMessage) :
    List.Chain' (fun x y => cmpMsg x y ≤ 0) (jsSort l) := by
  induction l with
  | nil => simp [jsSort]
  | cons a l ih => exact chain_sortInsert a (jsSort l) ih

theorem mem_sortInsert (x a : ChatMessage) (l : List ChatMessage) :
    x ∈ sortInsert a l ↔ x = a ∨ x ∈ l := by
  induction l with
  | nil => simp [sortInsert]
  | cons b l ih =>
      by_cases hab : cmpMsg a b ≤ 0
      · simp [sortInsert, hab]
      · simp [sortInsert, hab, ih]
        tauto

theorem mem_jsSort (x : ChatMessage) (l : List ChatMessage) :
    x ∈ jsSort l ↔ x ∈ l := by
  induction l with
  | nil => simp [jsSort]
  | cons a l ih => simp [jsSort, mem_sortInsert, ih]

/-- C2: for every message list delivered by a snapshot and every local
visibility set, the rendered list `sortedMessages` is sorted non-decreasing by
creation timestamp in the comparator's sense — each adjacent pair compares
`≤ 0` under the source comparator, which orders by seconds then nanoseconds and
makes a message missing a server timestamp compare as equal to its neighbours —
and it contains no message whose identifier is in the local visibility set. -/
theorem renderedList_sorted_and_filtered (messages : List ChatMessage)
    (hiddenForMe : Finset String) :
    List.Chain' (fun a b => cmpMsg a b ≤ 0) (sortedMessages messages hiddenForMe)
    ∧ (∀ m ∈ sortedMessages messages hiddenForMe, m.id ∉ hiddenForMe)
    ∧ (∀ a b : ChatMessage, a.createdAt = none ∨ b.createdAt = none → cmpMsg a b = 0) := by
  refine ⟨chain_jsSort _, ?_, ?_⟩
  · intro m hm
    rw [sortedMessages, mem_jsSort] at hm
    unfold visibleMessages at hm
    rw [List.mem_filter] at hm
    simpa using hm.2
  · intro a b h
    rcases h with h | h
    · cases hb : b.createdAt <;> simp [cmpMsg, h, hb]
    · cases ha : a.createdAt <;> simp [cmpMsg, h, ha]

/-- Witness for C2 on a concrete snapshot: three messages, one of them hidden,
one missing its server timestamp. -/
theorem renderedList_sorted_and_filtered_witness :
    List.Chain' (fun a b => cmpMsg a b ≤ 0)
      (sortedMessages
        [⟨"m1", "hi", "A", some ⟨5, 0⟩, none, false, none⟩,
         ⟨"m2", "yo", "B", some ⟨3, 7⟩, none, false, none⟩,
         ⟨"m3", "new", "C", none, none, false, none⟩]
        {"m2"})
    ∧ (∀ m ∈ sortedMessages
        [⟨"m1", "hi", "A", some ⟨5, 0⟩, none, false, none⟩,
         ⟨"m2", "yo", "B", some ⟨3, 7⟩, none, false, none⟩,
         ⟨"m3", "new", "C", none, none, false, none⟩]
        ({"m2"} : Finset String), m.id ∉ ({"m2"} : Finset String))
    ∧ (∀ a b : ChatMessage, a.createdAt = none ∨ b.createdAt = none → cmpMsg a b = 0) :=
  renderedList_sorted_and_filtered
    [⟨"m1", "hi", "A", some ⟨5, 0⟩, none, false, none⟩,
     ⟨"m2", "yo", "B", some ⟨3, 7⟩, none, false, none⟩,
     ⟨"m3", "new", "C", none, none, false, none⟩]
    {"m2"}

/-! ## Message mutation protocol -/

/-- The fixed placeholder text written by delete-for-everyone (line 347). -/
def placeholderText : String := "This message was deleted"

/-- Server-side effect of the edit write (lines 295–298):
`updateDoc(msgRef, { text, editedAt: serverTimestamp() })`. -/
def applyEdit (newText : String) (now : Ts) (m : ChatMessage) : ChatMessage :=
  { m with text := newText, editedAt := some now }

/-- Server-side effect of the delete-for-everyone write (lines 346–349):
`updateDoc(msgRef, { text: "This message was deleted", deletedForEveryone: true })`. -/
def applyDeleteForEveryone (m : ChatMessage) : ChatMessage :=
  { m with text := placeholderText, deletedForEveryone := true }

/-- A mutation applied to a single message record post-creation: the two
remote-write mutations the component can issue against an existing message. -/
inductive MutOp where
  | edit (newText : String) (now : Ts)
  | delEveryone
deriving DecidableEq, Repr

def applyMutOp (op : MutOp) (m : ChatMessage) : ChatMessage :=
  match op with
  | .edit t now => applyEdit t now m
  | .delEveryone => applyDeleteForEveryone m

def applyMutOps (ops : List MutOp) (m : ChatMessage) : ChatMessage :=
  ops.foldl (fun m op => applyMutOp op m) m

/-- Whether a mutation sequence contains at least one edit. -/
def hasEdit (ops : List MutOp) : Bool :=
  ops.any fun op => match op with
    | .edit _ _ => true
    | .delEveryone => false

theorem applyMutOps_editedAt (ops : List MutOp) (m : ChatMessage) :
    (applyMutOps ops m).editedAt = none ↔ hasEdit ops = false ∧ m.editedAt = none := by
  induction ops generalizing m with
  | nil => simp [applyMutOps, hasEdit]
  | cons op ops ih =>
      cases op with
      | edit t now =>
          simp [applyMutOps, hasEdit, List.any_cons] at ih ⊢
          intro h
          exact absurd ((ih _).mp h).2 (by simp [applyMutOp, applyEdit])
      | delEveryone =>
          simpa [applyMutOps, hasEdit, List.any_cons, applyMutOp,
                 applyDeleteForEveryone] using ih (applyDeleteForEveryone m)

/-- C3, counterexample: the claim "the edited timestamp is set if and only if
the message's text has been changed post-creation" fails on the code in both
directions at concrete inputs.  Delete-for-everyone changes the stored text of
`⟨"m1","hi","A",…⟩` to the placeholder yet leaves `editedAt` unset, and an edit
that rewrites the same text `"hi"` sets `editedAt` although the text is
unchanged. -/
theorem editedIff_counterexample :
    ((applyMutOp .delEveryone ⟨"m1", "hi", "A", some ⟨1, 0⟩, none, false, none⟩).text
        ≠ (⟨"m1", "hi", "A", some ⟨1, 0⟩, none, false, none⟩ : ChatMessage).text
      ∧ (applyMutOp .delEveryone ⟨"m1", "hi", "A", some ⟨1, 0⟩, none, false, none⟩).editedAt
        = none)
    ∧ ((applyMutOp (.edit "hi" ⟨2, 0⟩) ⟨"m1", "hi", "A", some ⟨1, 0⟩, none, false, none⟩).text
        = (⟨"m1", "hi", "A", some ⟨1, 0⟩, none, false, none⟩ : ChatMessage).text
      ∧ (applyMutOp (.edit "hi" ⟨2, 0⟩) ⟨"m1", "hi", "A", some ⟨1, 0⟩, none, false, none⟩).editedAt
        ≠ none) := by
  refine ⟨⟨?_, rfl⟩, rfl, ?_⟩ <;> decide

/-- C3, amended: for a message whose edited timestamp is unset, after any
sequence of mutation operations the edited timestamp is set if and only if the
sequence contains an edit operation — every edit sets it (even when it rewrites
the identical text), while delete-for-everyone changes the text without setting
it. -/
theorem editedAt_iff_edit_applied (ops : List MutOp) (m : ChatMessage)
    (h : m.editedAt = none) :
    (applyMutOps ops m).editedAt ≠ none ↔ hasEdit ops = true := by
  rw [ne_eq, applyMutOps_editedAt, not_and_or]
  simp [h]

/-- Witness for C3's amended statement on a concrete mutation sequence
containing a delete and an edit. -/
theorem editedAt_iff_edit_applied_witness :
    (applyMutOps [.delEveryone, .edit "fixed" ⟨2, 0⟩]
        ⟨"m1", "hi", "A", some ⟨1, 0⟩, none, false, none⟩).editedAt ≠ none
      ↔ hasEdit [.delEveryone, .edit "fixed" ⟨2, 0⟩] = true :=
  editedAt_iff_edit_applied [.delEveryone, .edit "fixed" ⟨2, 0⟩]
    ⟨"m1", "hi", "A", some ⟨1, 0⟩, none, false, none⟩ rfl

/-- C6: any number of successive edits updates only the text and the edited
timestamp; identifier, author name, creation timestamp, reply-target (and the
soft-delete flag) are unchanged, and a single edit sets exactly the new text
and an edited timestamp. -/
theorem edit_frame (edits : List (String × Ts)) (m : ChatMessage) :
    (applyMutOps (edits.map fun e => MutOp.edit e.1 e.2) m).id = m.id
    ∧ (applyMutOps (edits.map fun e => MutOp.edit e.1 e.2) m).name = m.name
    ∧ (applyMutOps (edits.map fun e => MutOp.edit e.1 e.2) m).createdAt = m.createdAt
    ∧ (applyMutOps (edits.map fun e => MutOp.edit e.1 e.2) m).replyToId = m.replyToId
    ∧ (applyMutOps (edits.map fun e => MutOp.edit e.1 e.2) m).deletedForEveryone
        = m.deletedForEveryone
    ∧ (∀ t now, (applyEdit t now m).text = t ∧ (applyEdit t now m).editedAt = some now) := by
  refine ⟨?_, ?_, ?_, ?_, ?_, fun t now => ⟨rfl, rfl⟩⟩ <;>
    · induction edits generalizing m with
      | nil => rfl
      | cons e rest ih => simpa [applyMutOps, applyMutOp, applyEdit] using ih (applyEdit e.1 e.2 m)

/-- Witness for C6 at a concrete message edited twice. -/
theorem edit_frame_witness :
    (applyMutOps ([("a", ⟨2, 0⟩), ("b", ⟨3, 0⟩)].map fun e => MutOp.edit e.1 e.2)
        ⟨"m1", "hi", "A", some ⟨1, 0⟩, some "m0", false, none⟩).id
      = (⟨"m1", "hi", "A", some ⟨1, 0⟩, some "m0", false, none⟩ : ChatMessage).id
    ∧ (applyMutOps ([("a", ⟨2, 0⟩), ("b", ⟨3, 0⟩)].map fun e => MutOp.edit e.1 e.2)
        ⟨"m1", "hi", "A", some ⟨1, 0⟩, some "m0", false, none⟩).name
      = (⟨"m1", "hi", "A", some ⟨1, 0⟩, some "m0", false, none⟩ : ChatMessage).name
    ∧ (applyMutOps ([("a", ⟨2, 0⟩), ("b", ⟨3, 0⟩)].map fun e => MutOp.edit e.1 e.2)
        ⟨"m1", "hi", "A", some ⟨1, 0⟩, some "m0", false, none⟩).createdAt
      = (⟨"m1", "hi", "A", some ⟨1, 0⟩, some "m0", false, none⟩ : ChatMessage).createdAt
    ∧ (applyMutOps ([("a", ⟨2, 0⟩), ("b", ⟨3, 0⟩)].map fun e => MutOp.edit e.1 e.2)
        ⟨"m1", "hi", "A", some ⟨1, 0⟩, some "m0", false, none⟩).replyToId
      = (⟨"m1", "hi", "A", some ⟨1, 0⟩, some "m0", false, none⟩ : ChatMessage).replyToId
    ∧ (applyMutOps ([("a", ⟨2, 0⟩), ("b", ⟨3, 0⟩)].map fun e => MutOp.edit e.1 e.2)
        ⟨"m1", "hi", "A", some ⟨1, 0⟩, some "m0", false, none⟩).deletedForEveryone
      = (⟨"m1", "hi", "A", some ⟨1, 0⟩, some "m0", false, none⟩ : ChatMessage).deletedForEveryone
    ∧ (∀ t now,
        (applyEdit t now ⟨"m1", "hi", "A", some ⟨1, 0⟩, some "m0", false, none⟩).text = t
        ∧ (applyEdit t now ⟨"m1", "hi", "A", some ⟨1, 0⟩, some "m0", false, none⟩).editedAt
            = some now) :=
  edit_frame [("a", ⟨2, 0⟩), ("b", ⟨3, 0⟩)] ⟨"m1", "hi", "A", some ⟨1, 0⟩, some "m0", false, none⟩

/-- Effect of `updateDoc` on the room's message collection: the record with the
given id gets the partial update `f`; every other record is untouched. -/
def updateById (mid : String) (f : ChatMessage → ChatMessage)
    (stream : List ChatMessage) : List ChatMessage :=
  stream.map fun r => if r.id = mid then f r else r

/-- `handleDeleteForEveryone` (lines 335–355) as its effect on the canonical
stream: rejected unless the invoking nickname equals the message's author and a
room is set and the user confirmed; otherwise the delete-for-everyone update is
written to the record with the message's id.  Returns the stream afterwards and
whether a remote write was attempted. -/
def handleDeleteForEveryone (user roomId : String) (confirmed : Bool)
    (m : ChatMessage) (stream : List ChatMessage) : List ChatMessage × Bool :=
  if m.name ≠ user then (stream, false)
  else if roomId = "" then (stream, false)
  else if !confirmed then (stream, false)
  else (updateById m.id applyDeleteForEveryone stream, true)

theorem updateById_delete_idem (mid : String) (stream : List ChatMessage) :
    updateById mid applyDeleteForEveryone (updateById mid applyDeleteForEveryone stream)
      = updateById mid applyDeleteForEveryone stream := by
  unfold updateById
  rw [List.map_map]
  apply List.map_congr_left
  intro r _
  by_cases hr : r.id = mid <;> simp [hr, applyDeleteForEveryone]

/-- C7: delete-for-everyone is idempotent for a message authored by the
invoking user (in a non-empty room, with the confirmation accepted): applying
it twice yields the same stream as applying it once, the record with the
message's id shows the fixed placeholder text with the soft-delete flag true,
and no record is physically removed (the stream's identifiers are unchanged). -/
theorem deleteForEveryone_idempotent (user roomId : String) (m : ChatMessage)
    (stream : List ChatMessage) (hauthor : m.name = user) (hroom : roomId ≠ "") :
    (handleDeleteForEveryone user roomId true m
        (handleDeleteForEveryone user roomId true m stream).1).1
      = (handleDeleteForEveryone user roomId true m stream).1
    ∧ (∀ r ∈ (handleDeleteForEveryone user roomId true m stream).1,
        r.id = m.id → r.text = placeholderText ∧ r.deletedForEveryone = true)
    ∧ (handleDeleteForEveryone user roomId true m stream).1.map (fun r => r.id)
        = stream.map (fun r => r.id) := by
  simp only [handleDeleteForEveryone, hauthor, ne_eq, not_true_eq_false, if_false,
    if_neg hroom, Bool.not_true, Bool.false_eq_true, if_false]
  refine ⟨updateById_delete_idem m.id stream, ?_, ?_⟩
  · intro r hr hid
    unfold updateById at hr
    rw [List.mem_map] at hr
    obtain ⟨x, -, hx⟩ := hr
    by_cases hxid : x.id = m.id
    · rw [if_pos hxid] at hx
      subst hx
      exact ⟨rfl, rfl⟩
    · rw [if_neg hxid] at hx
      subst hx
      exact absurd hid hxid
  · unfold updateById
    rw [List.map_map]
    apply List.map_congr_left
    intro r _
    by_cases hr : r.id = m.id <;> simp [hr, applyDeleteForEveryone]

/-- Witness for C7: a two-message stream, deleting the author's own message. -/
theorem deleteForEveryone_idempotent_witness :
    (handleDeleteForEveryone "A" "r1" true ⟨"m1", "hi", "A", some ⟨1, 0⟩, none, false, none⟩
        (handleDeleteForEveryone "A" "r1" true ⟨"m1", "hi", "A", some ⟨1, 0⟩, none, false, none⟩
          [⟨"m1", "hi", "A", some ⟨1, 0⟩, none, false, none⟩,
           ⟨"m2", "yo", "B", some ⟨2, 0⟩, some "m1", false, none⟩]).1).1
      = (handleDeleteForEveryone "A" "r1" true ⟨"m1", "hi", "A", some ⟨1, 0⟩, none, false, none⟩
          [⟨"m1", "hi", "A", some ⟨1, 0⟩, none, false, none⟩,
           ⟨"m2", "yo", "B", some ⟨2, 0⟩, some "m1", false, none⟩]).1
    ∧ (∀ r ∈ (handleDeleteForEveryone "A" "r1" true
          ⟨"m1", "hi", "A", some ⟨1, 0⟩, none, false, none⟩
          [⟨"m1", "hi", "A", some ⟨1, 0⟩, none, false, none⟩,
           ⟨"m2", "yo", "B", some ⟨2, 0⟩, some "m1", false, none⟩]).1,
        r.id = (⟨"m1", "hi", "A", some ⟨1, 0⟩, none, false, none⟩ : ChatMessage).id →
          r.text = placeholderText ∧ r.deletedForEveryone = true)
    ∧ (handleDeleteForEveryone "A" "r1" true ⟨"m1", "hi", "A", some ⟨1, 0⟩, none, false, none⟩
          [⟨"m1", "hi", "A", some ⟨1, 0⟩, none, false, none⟩,
           ⟨"m2", "yo", "B", some ⟨2, 0⟩, some "m1", false, none⟩]).1.map (fun r => r.id)
        = [⟨"m1", "hi", "A", some ⟨1, 0⟩, none, false, none⟩,
           ⟨"m2", "yo", "B", some ⟨2, 0⟩, some "m1", false, none⟩].map
            (fun r : ChatMessage => r.id) :=
  deleteForEveryone_idempotent "A" "r1" ⟨"m1", "hi", "A", some ⟨1, 0⟩, none, false, none⟩
    [⟨"m1", "hi", "A", some ⟨1, 0⟩, none, false, none⟩,
     ⟨"m2", "yo", "B", some ⟨2, 0⟩, some "m1", false, none⟩] rfl (by decide)

/-! ## Session state and handleSubmit -/

/-- The ECMAScript `String.prototype.trim` whitespace set (WhiteSpace ∪
LineTerminator). -/
def jsWhitespace : List Char :=
  ['\t', '\n', '\x0b', '\x0c', '\r', ' ', ' ', ' ', ' ', ' ',
   ' ', ' ', ' ', ' ', ' ', ' ', ' ', ' ',
   ' ', ' ', ' ', ' ', ' ', '　', '﻿']

def isJsWhitespace (c : Char) : Bool := jsWhitespace.contains c

/-- JS `input.trim()`: strip leading and trailing whitespace. -/
def jsTrim (s : String) : String :=
  ⟨((s.data.dropWhile isJsWhitespace).reverse.dropWhile isJsWhitespace).reverse⟩

/-- The ephemeral session state of the chat view: the input field, the
reply-target and edit-target selections, and the open action menu. -/
structure SessionState where
  input : String
  replyTo : Option ChatMessage
  editingMessage : Option ChatMessage
  menuOpenFor : Option String
deriving DecidableEq, Repr

/-- A remote write the component can attempt, as the Firestore call it issues. -/
inductive WriteOp where
  | addDoc (text name : String) (replyToId : Option String)
  | updateEdit (id : String) (text : String)
  | updateDelete (id : String)
deriving DecidableEq, Repr

/-- `handleSubmit` (lines 283–315) as a state transition.  Mirrors the source:
trim the input and return unchanged on empty text, missing room, or a
non-allowed gate; then clear the input; then either issue the edit update (on
success also clearing the edit target) or the `addDoc` append with the current
author name and reply-target (`replyTo?.id || null`; on success also clearing
the reply target).  `writeOk` models whether the awaited Firestore call
succeeds; on failure only the alert runs, so no further state changes. -/
def handleSubmit (roomId : String) (allowed : Bool) (user : String) (writeOk : Bool)
    (st : SessionState) : SessionState × List WriteOp :=
  let text := jsTrim st.input
  if text = "" || roomId = "" || !allowed then (st, [])
  else
    let st1 := { st with input := "" }
    match st.editingMessage with
    | some em =>
        if writeOk then ({ st1 with editingMessage := none }, [.updateEdit em.id text])
        else (st1, [.updateEdit em.id text])
    | none =>
        let replyId := match st.replyTo with
          | none => none
          | some r => if r.id = "" then none else some r.id
        if writeOk then ({ st1 with replyTo := none }, [.addDoc text user replyId])
        else (st1, [.addDoc text user replyId])

/-- C5: submitting an input whose trimmed form is empty is a complete no-op:
no remote call is attempted and the whole session state (input field included)
is returned unchanged. -/
theorem whitespaceSubmit_noop (roomId user : String) (allowed writeOk : Bool)
    (st : SessionState) (h : jsTrim st.input = "") :
    handleSubmit roomId allowed user writeOk st = (st, []) := by
  simp [handleSubmit, h]

/-- Witness for C5 at a concrete all-whitespace input. -/
theorem whitespaceSubmit_noop_witness :
    handleSubmit "r1" true "A" true ⟨"  \t ", none, none, none⟩
      = (⟨"  \t ", none, none, none⟩, []) :=
  whitespaceSubmit_noop "r1" "A" true true ⟨"  \t ", none, none, none⟩ (by decide)

/-- C4, counterexample: the claim exempts only the send path from the optimistic
input-clear, but `setInput("")` runs before the branch on `editingMessage`, so
a failing edit also clears the input: submitting `"hello"` while editing `m1`
with the write failing leaves the input empty, not `"hello"`. -/
theorem mutationFailure_counterexample :
    (handleSubmit "r1" true "A" false
        ⟨"hello", none, some ⟨"m1", "old", "A", some ⟨1, 0⟩, none, false, none⟩, none⟩).1.input
      = ""
    ∧ (⟨"hello", none, some ⟨"m1", "old", "A", some ⟨1, 0⟩, none, false, none⟩, none⟩ :
        SessionState).input ≠ ""
    ∧ (⟨"hello", none, some ⟨"m1", "old", "A", some ⟨1, 0⟩, none, false, none⟩, none⟩ :
        SessionState).editingMessage ≠ none := by
  refine ⟨?_, by decide, by decide⟩
  decide

/-- C4, amended: on a remote write failure of a submit (send or edit alike) the
operation is attempted exactly once and not retried, the reply and edit
selections are unchanged (the edit target stays open on edit failure), and the
input has been cleared optimistically before the write settled — on the edit
path just as on the send path. -/
theorem mutationFailure_preserves_selection (roomId user : String) (st : SessionState)
    (h1 : jsTrim st.input ≠ "") (h2 : roomId ≠ "") :
    (handleSubmit roomId true user false st).1.replyTo = st.replyTo
    ∧ (handleSubmit roomId true user false st).1.editingMessage = st.editingMessage
    ∧ (handleSubmit roomId true user false st).1.input = ""
    ∧ (handleSubmit roomId true user false st).2.length = 1 := by
  cases hedit : st.editingMessage <;>
    simp [handleSubmit, h1, h2, hedit]

/-- Witness for C4's amended statement: a failing edit submit. -/
theorem mutationFailure_preserves_selection_witness :
    (handleSubmit "r1" true "A" false
        ⟨"hello", none, some ⟨"m1", "old", "A", some ⟨1, 0⟩, none, false, none⟩, none⟩).1.replyTo
      = (⟨"hello", none, some ⟨"m1", "old", "A", some ⟨1, 0⟩, none, false, none⟩, none⟩ :
          SessionState).replyTo
    ∧ (handleSubmit "r1" true "A" false
        ⟨"hello", none, some ⟨"m1", "old", "A", some ⟨1, 0⟩, none, false, none⟩, none⟩).1.editingMessage
      = (⟨"hello", none, some ⟨"m1", "old", "A", some ⟨1, 0⟩, none, false, none⟩, none⟩ :
          SessionState).editingMessage
    ∧ (handleSubmit "r1" true "A" false
        ⟨"hello", none, some ⟨"m1", "old", "A", some ⟨1, 0⟩, none, false, none⟩, none⟩).1.input = ""
    ∧ (handleSubmit "r1" true "A" false
        ⟨"hello", none, some ⟨"m1", "old", "A", some ⟨1, 0⟩, none, false, none⟩, none⟩).2.length
      = 1 :=
  mutationFailure_preserves_selection "r1" "A"
    ⟨"hello", none, some ⟨"m1", "old", "A", some ⟨1, 0⟩, none, false, none⟩, none⟩
    (by decide) (by decide)

/-! ## Delete-for-me and the remote store -/

/-- Server-side parameters when a write lands: the id Firestore assigns to an
appended document and the server timestamp. -/
structure ServerEnv where
  freshId : String
  now : Ts
deriving DecidableEq, Repr

/-- Effect of one attempted write on the canonical message stream. -/
def applyWrite (env : ServerEnv) (stream : List ChatMessage) : WriteOp → List ChatMessage
  | .addDoc text name replyToId =>
      stream ++ [⟨env.freshId, text, name, some env.now, replyToId, false, none⟩]
  | .updateEdit mid text => updateById mid (applyEdit text env.now) stream
  | .updateDelete mid => updateById mid applyDeleteForEveryone stream

def applyWrites (env : ServerEnv) (ops : List WriteOp) (stream : List ChatMessage) :
    List ChatMessage :=
  ops.foldl (applyWrite env) stream

/-- Result of `handleDeleteForMe`: the new local visibility set, the set handed
to `persistHidden`, the menu state, and the remote writes attempted. -/
structure DeleteForMeResult where
  hiddenForMe : Finset String
  persisted : Finset String
  menuOpenFor : Option String
  remoteWrites : List WriteOp
deriving DecidableEq

/-- `handleDeleteForMe` (lines 357–363): copy the hidden set, add the message's
id, store and persist it, close the menu; no Firestore call occurs. -/
def handleDeleteForMe (m : ChatMessage) (hiddenForMe : Finset String) :
    DeleteForMeResult :=
  let next := insert m.id hiddenForMe
  ⟨next, next, none, []⟩

/-- C8: delete-for-me adds exactly the message's identifier to the local
visibility set and persists that same set, attempts no remote write (so the
canonical stream is unchanged under any server environment), and a second
device with its own visibility set for the same room renders exactly the same
list before and after. -/
theorem deleteForMe_local_only (m : ChatMessage) (hidden1 hidden2 : Finset String)
    (stream : List ChatMessage) (env : ServerEnv) :
    (handleDeleteForMe m hidden1).hiddenForMe = insert m.id hidden1
    ∧ (handleDeleteForMe m hidden1).persisted = insert m.id hidden1
    ∧ (handleDeleteForMe m hidden1).remoteWrites = []
    ∧ applyWrites env (handleDeleteForMe m hidden1).remoteWrites stream = stream
    ∧ sortedMessages (applyWrites env (handleDeleteForMe m hidden1).remoteWrites stream) hidden2
        = sortedMessages stream hidden2 := by
  exact ⟨rfl, rfl, rfl, rfl, rfl⟩

/-- Witness for C8 at a concrete two-device scenario. -/
theorem deleteForMe_local_only_witness :
    (handleDeleteForMe ⟨"m1", "hi", "A", some ⟨1, 0⟩, none, false, none⟩ ∅).hiddenForMe
      = insert "m1" (∅ : Finset String)
    ∧ (handleDeleteForMe ⟨"m1", "hi", "A", some ⟨1, 0⟩, none, false, none⟩ ∅).persisted
      = insert "m1" (∅ : Finset String)
    ∧ (handleDeleteForMe ⟨"m1", "hi", "A", some ⟨1, 0⟩, none, false, none⟩ ∅).remoteWrites = []
    ∧ applyWrites ⟨"z", ⟨9, 0⟩⟩
        (handleDeleteForMe ⟨"m1", "hi", "A", some ⟨1, 0⟩, none, false, none⟩ ∅).remoteWrites
        [⟨"m1", "hi", "A", some ⟨1, 0⟩, none, false, none⟩]
      = [⟨"m1", "hi", "A", some ⟨1, 0⟩, none, false, none⟩]
    ∧ sortedMessages
        (applyWrites ⟨"z", ⟨9, 0⟩⟩
          (handleDeleteForMe ⟨"m1", "hi", "A", some ⟨1, 0⟩, none, false, none⟩ ∅).remoteWrites
          [⟨"m1", "hi", "A", some ⟨1, 0⟩, none, false, none⟩])
        {"other"}
      = sortedMessages [⟨"m1", "hi", "A", some ⟨1, 0⟩, none, false, none⟩] {"other"} :=
  deleteForMe_local_only ⟨"m1", "hi", "A", some ⟨1, 0⟩, none, false, none⟩ ∅ {"other"}
    [⟨"m1", "hi", "A", some ⟨1, 0⟩, none, false, none⟩] ⟨"z", ⟨9, 0⟩⟩

/-! ## Reply preview -/

/-- `messageMap` (lines 88–92) followed by `.get`: `messages.forEach(m => map.set(m.id, m))`
means a later record with the same id overwrites an earlier one, so lookup
returns the last match. -/
def mapGet (messages : List ChatMessage) (k : String) : Option ChatMessage :=
  messages.foldl (fun acc m => if m.id = k then some m else acc) none

/-- The reply preview of a rendered bubble (lines 453, 519–537):
`m.replyToId ? messageMap.get(m.replyToId) : null`, rendered (author name and
text of the target) only when the lookup hits and the bubble itself is not
soft-deleted. -/
def replyPreview (messages : List ChatMessage) (m : ChatMessage) :
    Option (String × String) :=
  match m.replyToId with
  | none => none
  | some rid =>
      if rid = "" then none
      else
        match mapGet messages rid with
        | none => none
        | some replied =>
            if m.deletedForEveryone then none
            else some (replied.name, replied.text)

theorem mapGet_foldl_shift (k : String) (msgs : List ChatMessage)
    (acc : Option ChatMessage) :
    msgs.foldl (fun a m => if m.id = k then some m else a) acc
      = match mapGet msgs k with
        | some r => some r
        | none => acc := by
  induction msgs generalizing acc with
  | nil => simp [mapGet]
  | cons m rest ih =>
      simp only [mapGet, List.foldl_cons] at ih ⊢
      by_cases hm : m.id = k
      · rw [if_pos hm, if_pos hm, ih (some m)]
        cases hrest : rest.foldl (fun a m => if m.id = k then some m else a) none <;>
          simp [mapGet, hrest, ih (some m)]
      · rw [if_neg hm, if_neg hm, ih acc]

theorem mapGet_updateById_aux (rid : String) (f : ChatMessage → ChatMessage)
    (hid : ∀ m, (f m).id = m.id) (msgs : List ChatMessage) (acc : Option ChatMessage) :
    (updateById rid f msgs).foldl (fun a x => if x.id = rid then some x else a) (acc.map f)
      = (msgs.foldl (fun a x => if x.id = rid then some x else a) acc).map f := by
  induction msgs generalizing acc with
  | nil => rfl
  | cons m rest ih =>
      simp only [updateById, List.map_cons, List.foldl_cons] at ih ⊢
      by_cases hm : m.id = rid
      · have hfm : (f m).id = rid := by rw [hid m, hm]
        simp only [if_pos hm, if_pos hfm]
        exact ih (some m)
      · simp only [if_neg hm]
        exact ih acc

theorem mapGet_updateById (rid : String) (f : ChatMessage → ChatMessage)
    (hid : ∀ m, (f m).id = m.id) (msgs : List ChatMessage) :
    mapGet (updateById rid f msgs) rid = (mapGet msgs rid).map f :=
  mapGet_updateById_aux rid f hid msgs none

/-- C9: for a rendered message carrying a reply-target identifier, the preview
is resolved by looking the identifier up in the full message set (in
particular, a target hidden by this device's delete-for-me is absent from the
rendered list yet its preview still resolves); if the target is absent from the
set the preview is silently omitted; and if the target has been soft-deleted
the preview still resolves, showing the target's placeholder text and author
name. -/
theorem replyPreview_resolution (messages : List ChatMessage) (m replied : ChatMessage)
    (rid : String) (hrid : m.replyToId = some rid) (hne : rid ≠ "")
    (hnotdel : m.deletedForEveryone = false) :
    (mapGet messages rid = some replied →
        replyPreview messages m = some (replied.name, replied.text))
    ∧ (mapGet messages rid = none → replyPreview messages m = none)
    ∧ (mapGet messages rid = some replied → ∀ hidden : Finset String, rid ∈ hidden →
        (∀ x ∈ sortedMessages messages hidden, x.id ≠ rid)
        ∧ replyPreview messages m = some (replied.name, replied.text))
    ∧ (mapGet messages rid = some replied →
        replyPreview (updateById rid applyDeleteForEveryone messages) m
          = some (replied.name, placeholderText)) := by
  refine ⟨?_, ?_, ?_, ?_⟩
  · intro hget
    simp [replyPreview, hrid, hne, hget, hnotdel]
  · intro hget
    simp [replyPreview, hrid, hne, hget]
  · intro hget hidden hhid
    constructor
    · intro x hx hxid
      rw [sortedMessages, mem_jsSort] at hx
      unfold visibleMessages at hx
      rw [List.mem_filter] at hx
      have hnot : x.id ∉ hidden := by simpa using hx.2
      exact hnot (hxid ▸ hhid)
    · simp [replyPreview, hrid, hne, hget, hnotdel]
  · intro hget
    have hupd := mapGet_updateById rid applyDeleteForEveryone (fun _ => rfl) messages
    rw [hget] at hupd
    simp [replyPreview, hrid, hne, hupd, hnotdel, applyDeleteForEveryone]

/-- Witness for C9: B replies to A's message; A's message is looked up, is
hidden-for-me on this device, and is then soft-deleted. -/
theorem replyPreview_resolution_witness :
    (mapGet
        [⟨"a", "hi", "A", some ⟨1, 0⟩, none, false, none⟩,
         ⟨"b", "hello", "B", some ⟨2, 0⟩, some "a", false, none⟩] "a"
      = some ⟨"a", "hi", "A", some ⟨1, 0⟩, none, false, none⟩ →
        replyPreview
          [⟨"a", "hi", "A", some ⟨1, 0⟩, none, false, none⟩,
           ⟨"b", "hello", "B", some ⟨2, 0⟩, some "a", false, none⟩]
          ⟨"b", "hello", "B", some ⟨2, 0⟩, some "a", false, none⟩
        = some ((⟨"a", "hi", "A", some ⟨1, 0⟩, none, false, none⟩ : ChatMessage).name,
                (⟨"a", "hi", "A", some ⟨1, 0⟩, none, false, none⟩ : ChatMessage).text))
    ∧ (mapGet
        [⟨"a", "hi", "A", some ⟨1, 0⟩, none, false, none⟩,
         ⟨"b", "hello", "B", some ⟨2, 0⟩, some "a", false, none⟩] "a" = none →
        replyPreview
          [⟨"a", "hi", "A", some ⟨1, 0⟩, none, false, none⟩,
           ⟨"b", "hello", "B", some ⟨2, 0⟩, some "a", false, none⟩]
          ⟨"b", "hello", "B", some ⟨2, 0⟩, some "a", false, none⟩ = none)
    ∧ (mapGet
        [⟨"a", "hi", "A", some ⟨1, 0⟩, none, false, none⟩,
         ⟨"b", "hello", "B", some ⟨2, 0⟩, some "a", false, none⟩] "a"
      = some ⟨"a", "hi", "A", some ⟨1, 0⟩, none, false, none⟩ →
        ∀ hidden : Finset String, "a" ∈ hidden →
        (∀ x ∈ sortedMessages
            [⟨"a", "hi", "A", some ⟨1, 0⟩, none, false, none⟩,
             ⟨"b", "hello", "B", some ⟨2, 0⟩, some "a", false, none⟩] hidden, x.id ≠ "a")
        ∧ replyPreview
            [⟨"a", "hi", "A", some ⟨1, 0⟩, none, false, none⟩,
             ⟨"b", "hello", "B", some ⟨2, 0⟩, some "a", false, none⟩]
            ⟨"b", "hello", "B", some ⟨2, 0⟩, some "a", false, none⟩
          = some ((⟨"a", "hi", "A", some ⟨1, 0⟩, none, false, none⟩ : ChatMessage).name,
                  (⟨"a", "hi", "A", some ⟨1, 0⟩, none, false, none⟩ : ChatMessage).text))
    ∧ (mapGet
        [⟨"a", "hi", "A", some ⟨1, 0⟩, none, false, none⟩,
         ⟨"b", "hello", "B", some ⟨2, 0⟩, some "a", false, none⟩] "a"
      = some ⟨"a", "hi", "A", some ⟨1, 0⟩, none, false, none⟩ →
        replyPreview
          (updateById "a" applyDeleteForEveryone
            [⟨"a", "hi", "A", some ⟨1, 0⟩, none, false, none⟩,
             ⟨"b", "hello", "B", some ⟨2, 0⟩, some "a", false, none⟩])
          ⟨"b", "hello", "B", some ⟨2, 0⟩, some "a", false, none⟩
        = some ((⟨"a", "hi", "A", some ⟨1, 0⟩, none, false, none⟩ : ChatMessage).name,
                placeholderText)) :=
  replyPreview_resolution
    [⟨"a", "hi", "A", some ⟨1, 0⟩, none, false, none⟩,
     ⟨"b", "hello", "B", some ⟨2, 0⟩, some "a", false, none⟩]
    ⟨"b", "hello", "B", some ⟨2, 0⟩, some "a", false, none⟩
    ⟨"a", "hi", "A", some ⟨1, 0⟩, none, false, none⟩
    "a" rfl (by decide) rfl

/-! ## Default nickname -/

/-- `searchParams.get("name") || "Anonymous"` (line 47): a missing query value
(`null`) and the empty string are both falsy, so either yields `"Anonymous"`. -/
def nameFromQuery (q : Option String) : String :=
  match q with
  | none => "Anonymous"
  | some s => if s = "" then "Anonymous" else s

/-- `handleEdit` (lines 323–333): rejected with an alert unless the message's
stored author name equals the current nickname; otherwise selects the message
for editing, clears the reply target, loads its text into the input and closes
the menu. -/
def handleEdit (user : String) (m : ChatMessage) (st : SessionState) : SessionState :=
  if m.name ≠ user then st
  else { st with editingMessage := some m, replyTo := none, input := m.text,
                 menuOpenFor := none }

/-- C10: with no nickname in the route (absent or empty query value) the client
substitutes `"Anonymous"` everywhere the current identity is used: a submitted
new message is appended with author name `"Anonymous"`; the own-message checks
of edit and delete-for-everyone accept every message authored `"Anonymous"`
(the edit selection opens, the delete write is attempted); and any two sessions
joining without a nickname resolve to the same author name. -/
theorem anonymous_default (q : Option String) (hq : q = none ∨ q = some "") :
    nameFromQuery q = "Anonymous"
    ∧ (∀ (roomId : String) (writeOk : Bool) (st : SessionState),
        st.editingMessage = none → jsTrim st.input ≠ "" → roomId ≠ "" →
        (handleSubmit roomId true (nameFromQuery q) writeOk st).2
          = [.addDoc (jsTrim st.input) "Anonymous"
              (match st.replyTo with
               | none => none
               | some r => if r.id = "" then none else some r.id)])
    ∧ (∀ (m : ChatMessage) (st : SessionState), m.name = "Anonymous" →
        (handleEdit (nameFromQuery q) m st).editingMessage = some m)
    ∧ (∀ (m : ChatMessage) (roomId : String) (stream : List ChatMessage),
        m.name = "Anonymous" → roomId ≠ "" →
        (handleDeleteForEveryone (nameFromQuery q) roomId true m stream).2 = true)
    ∧ (∀ q2, (q2 = none ∨ q2 = some "") → nameFromQuery q2 = nameFromQuery q) := by
  have hname : nameFromQuery q = "Anonymous" := by
    rcases hq with h | h <;> simp [nameFromQuery, h]
  refine ⟨hname, ?_, ?_, ?_, ?_⟩
  · intro roomId writeOk st hedit hinput hroom
    cases hwok : writeOk <;>
      simp [handleSubmit, hinput, hroom, hedit, hname]
  · intro m st hm
    simp [handleEdit, hm, hname]
  · intro m roomId stream hm hroom
    simp [handleDeleteForEveryone, hm, hname, hroom]
  · intro q2 hq2
    rw [hname]
    rcases hq2 with h | h <;> simp [nameFromQuery, h]

/-- Witness for C10 at the empty nickname query value. -/
theorem anonymous_default_witness :
    nameFromQuery (some "") = "Anonymous"
    ∧ (∀ (roomId : String) (writeOk : Bool) (st : SessionState),
        st.editingMessage = none → jsTrim st.input ≠ "" → roomId ≠ "" →
        (handleSubmit roomId true (nameFromQuery (some "")) writeOk st).2
          = [.addDoc (jsTrim st.input) "Anonymous"
              (match st.replyTo with
               | none => none
               | some r => if r.id = "" then none else some r.id)])
    ∧ (∀ (m : ChatMessage) (st : SessionState), m.name = "Anonymous" →
        (handleEdit (nameFromQuery (some "")) m st).editingMessage = some m)
    ∧ (∀ (m : ChatMessage) (roomId : String) (stream : List ChatMessage),
        m.name = "Anonymous" → roomId ≠ "" →
        (handleDeleteForEveryone (nameFromQuery (some "")) roomId true m stream).2 = true)
    ∧ (∀ q2, (q2 = none ∨ q2 = some "") → nameFromQuery q2 = nameFromQuery (some "")) :=
  anonymous_default (some "") (Or.inr rfl)

end AnonyChat
